import Mathlib

/-!
Shallow embedding of the tiered-memory core of the repository
(`backend/app/services/memory_service.py`, `backend/app/services/chat_service.py`,
`backend/app/infrastructure/vector_db.py`, `backend/app/infrastructure/cache.py`,
`backend/app/infrastructure/tables.py`, `backend/app/domain/memory_models.py`).

Conventions of the embedding:
- `user_id` and row ids are `Nat` (UUIDs are only compared for equality in the
  source, so any infinite type with decidable equality is faithful).
- timestamps (`datetime.utcnow()`) are `Int` seconds; `timedelta.total_seconds()`
  becomes `Int` subtraction.
- Python floats that hold confidences / importance / similarity scores are `Rat`
  (the source only compares and stores them; every constant involved is decimal).
- JSONB columns and `json.loads` values are the `Json` inductive below; the JSON
  text format is modelled by an executable parser `jsonParse` mirroring
  `json.loads` (parse the whole string or fail), and `str.replace` / `str.strip`
  are modelled by the executable `pyReplace` / `pyStrip`.
- the Redis round-trip `json.dumps`/`json.loads` of the STM window is modelled as
  the identity on the stored list of turns: the cache value type is the window
  itself.
- `async`/`await` sequencing becomes explicit state passing; a raised-and-caught
  exception becomes an `Except`/branch on an availability flag.
-/

set_option linter.unusedVariables false

namespace App

/-! ### JSON values (`json.loads` results, JSONB columns) -/

/-- JSON values, as produced by `json.loads` in the source. -/
inductive Json where
  | null
  | bool (b : Bool)
  | num (q : Rat)
  | str (s : String)
  | arr (elems : List Json)
  | obj (fields : List (String × Json))

/-- `dict.get(k)`: last binding wins, as in a Python dict built by a JSON parser. -/
def Json.getField : Json → String → Option Json
  | .obj fields, k => (fields.reverse.find? (fun kv => kv.1 == k)).map (·.2)
  | _, _ => none

/-- Python truthiness of a JSON value (`if mem_data:` in the source). -/
def jsonTruthy : Json → Bool
  | .null => false
  | .bool b => b
  | .num q => !(q == 0)
  | .str s => !(s == "")
  | .arr l => !l.isEmpty
  | .obj l => !l.isEmpty

/-! ### Python string helpers: `str.replace`, `str.strip` -/

/-- One fuel-indexed pass of Python `str.replace`: replace every non-overlapping
occurrence of the pattern, scanning left to right.  The fuel is only a
termination device; `len + 1` units always suffice because every step consumes
at least one character. -/
def replaceAllF : Nat → List Char → List Char → List Char → List Char
  | 0, _, _, l => l
  | _, _, _, [] => []
  | _+1, [], _, l => l
  | fuel+1, p :: ps, rep, c :: cs =>
    if List.isPrefixOf (p :: ps) (c :: cs) then
      rep ++ replaceAllF fuel (p :: ps) rep (cs.drop ps.length)
    else
      c :: replaceAllF fuel (p :: ps) rep cs

/-- Python `s.replace(pat, rep)`. -/
def pyReplace (s pat rep : String) : String :=
  String.mk (replaceAllF (s.data.length + 1) pat.data rep.data s.data)

/-- ASCII whitespace stripped by Python `str.strip()`. -/
def isPyWs (c : Char) : Bool :=
  c == ' ' || c == '\t' || c == '\n' || c == '\r' || c == '\x0c' || c == '\x0b'

/-- Python `s.strip()`. -/
def pyStrip (s : String) : String :=
  String.mk (((s.data.dropWhile isPyWs).reverse.dropWhile isPyWs).reverse)

/-! ### Executable JSON parser (model of `json.loads`)

`json.loads` raises `JSONDecodeError` unless the *entire* input is one valid
JSON document.  The parser below is a recursive-descent parser over the
character list; the fuel argument is a termination device only (`2*len + 8`
units always suffice, every recursive call strictly decreases the fuel and
consumes input). -/

/-- Skip JSON whitespace. -/
def skipWs (cs : List Char) : List Char :=
  cs.dropWhile (fun c => c == ' ' || c == '\t' || c == '\n' || c == '\r')

/-- Value of a hex digit, if any. -/
def hexVal (c : Char) : Option Nat :=
  if '0' ≤ c ∧ c ≤ '9' then some (c.toNat - '0'.toNat)
  else if 'a' ≤ c ∧ c ≤ 'f' then some (c.toNat - 'a'.toNat + 10)
  else if 'A' ≤ c ∧ c ≤ 'F' then some (c.toNat - 'A'.toNat + 10)
  else none

/-- Parse the body of a JSON string after the opening quote; returns the decoded
characters and the rest of the input. -/
def parseStringRest : List Char → Option (List Char × List Char)
  | [] => none
  | '"' :: rest => some ([], rest)
  | '\\' :: e :: rest =>
    match e with
    | '"' => (parseStringRest rest).map (fun r => ('"' :: r.1, r.2))
    | '\\' => (parseStringRest rest).map (fun r => ('\\' :: r.1, r.2))
    | '/' => (parseStringRest rest).map (fun r => ('/' :: r.1, r.2))
    | 'b' => (parseStringRest rest).map (fun r => ('\x08' :: r.1, r.2))
    | 'f' => (parseStringRest rest).map (fun r => ('\x0c' :: r.1, r.2))
    | 'n' => (parseStringRest rest).map (fun r => ('\n' :: r.1, r.2))
    | 'r' => (parseStringRest rest).map (fun r => ('\r' :: r.1, r.2))
    | 't' => (parseStringRest rest).map (fun r => ('\t' :: r.1, r.2))
    | 'u' =>
      match rest with
      | h1 :: h2 :: h3 :: h4 :: r2 =>
        match hexVal h1, hexVal h2, hexVal h3, hexVal h4 with
        | some a, some b, some c, some d =>
          (parseStringRest r2).map (fun r =>
            (Char.ofNat (((a * 16 + b) * 16 + c) * 16 + d) :: r.1, r.2))
        | _, _, _, _ => none
      | _ => none
    | _ => none
  | c :: rest => (parseStringRest rest).map (fun r => (c :: r.1, r.2))

/-- Digits of a decimal literal folded into a `Nat`. -/
def digitsToNat (ds : List Char) : Nat :=
  ds.foldl (fun acc c => acc * 10 + (c.toNat - '0'.toNat)) 0

/-- Parse a JSON number (optional sign, integer part, optional fraction,
optional exponent); returns the value and the rest of the input. -/
def parseNumber (cs : List Char) : Option (Rat × List Char) :=
  let (neg, cs1) := match cs with
    | '-' :: r => (true, r)
    | _ => (false, cs)
  let intDs := cs1.takeWhile Char.isDigit
  let cs2 := cs1.dropWhile Char.isDigit
  if intDs.isEmpty then none
  else
    let (fracDs, cs3) := match cs2 with
      | '.' :: r => (r.takeWhile Char.isDigit, r.dropWhile Char.isDigit)
      | _ => ([], cs2)
    if cs2.length ≠ cs3.length ∧ fracDs.isEmpty then none
    else
      let (expOk, expNeg, expDs, cs4) := match cs3 with
        | 'e' :: '-' :: r => (!(r.takeWhile Char.isDigit).isEmpty, true, r.takeWhile Char.isDigit, r.dropWhile Char.isDigit)
        | 'E' :: '-' :: r => (!(r.takeWhile Char.isDigit).isEmpty, true, r.takeWhile Char.isDigit, r.dropWhile Char.isDigit)
        | 'e' :: '+' :: r => (!(r.takeWhile Char.isDigit).isEmpty, false, r.takeWhile Char.isDigit, r.dropWhile Char.isDigit)
        | 'E' :: '+' :: r => (!(r.takeWhile Char.isDigit).isEmpty, false, r.takeWhile Char.isDigit, r.dropWhile Char.isDigit)
        | 'e' :: r => (!(r.takeWhile Char.isDigit).isEmpty, false, r.takeWhile Char.isDigit, r.dropWhile Char.isDigit)
        | 'E' :: r => (!(r.takeWhile Char.isDigit).isEmpty, false, r.takeWhile Char.isDigit, r.dropWhile Char.isDigit)
        | _ => (true, false, [], cs3)
      if !expOk then none
      else
        let mantissa : Int := Int.ofNat (digitsToNat intDs * 10 ^ fracDs.length + digitsToNat fracDs)
        let mantissa := if neg then -mantissa else mantissa
        let e := digitsToNat expDs
        let q :=
          if expNeg then mkRat mantissa (10 ^ fracDs.length * 10 ^ e)
          else mkRat (mantissa * Int.ofNat (10 ^ e)) (10 ^ fracDs.length)
        some (q, cs4)

mutual

/-- Parse one JSON value (leading whitespace allowed). -/
def parseValue : Nat → List Char → Option (Json × List Char)
  | 0, _ => none
  | fuel+1, cs =>
    match skipWs cs with
    | 'n' :: 'u' :: 'l' :: 'l' :: rest => some (.null, rest)
    | 't' :: 'r' :: 'u' :: 'e' :: rest => some (.bool true, rest)
    | 'f' :: 'a' :: 'l' :: 's' :: 'e' :: rest => some (.bool false, rest)
    | '"' :: rest => (parseStringRest rest).map (fun r => (.str (String.mk r.1), r.2))
    | '[' :: rest =>
      (match skipWs rest with
       | ']' :: r2 => some (.arr [], r2)
       | r2 => (parseElems fuel r2).map (fun r => (.arr r.1, r.2)))
    | '\x7b' :: rest =>
      (match skipWs rest with
       | '\x7d' :: r2 => some (.obj [], r2)
       | r2 => (parseFields fuel r2).map (fun r => (.obj r.1, r.2)))
    | cs' => (parseNumber cs').map (fun r => (.num r.1, r.2))

/-- Parse the comma-separated elements of an array up to the closing bracket. -/
def parseElems : Nat → List Char → Option (List Json × List Char)
  | 0, _ => none
  | fuel+1, cs =>
    match parseValue fuel cs with
    | none => none
    | some (v, rest) =>
      match skipWs rest with
      | ',' :: r2 => (parseElems fuel r2).map (fun r => (v :: r.1, r.2))
      | ']' :: r2 => some ([v], r2)
      | _ => none

/-- Parse the comma-separated `"key": value` fields of an object up to the
closing brace. -/
def parseFields : Nat → List Char → Option (List (String × Json) × List Char)
  | 0, _ => none
  | fuel+1, cs =>
    match skipWs cs with
    | '"' :: rest =>
      match parseStringRest rest with
      | none => none
      | some (k, r1) =>
        match skipWs r1 with
        | ':' :: r2 =>
          (match parseValue fuel r2 with
           | none => none
           | some (v, r3) =>
             match skipWs r3 with
             | ',' :: r4 => (parseFields fuel r4).map (fun r => ((String.mk k, v) :: r.1, r.2))
             | '\x7d' :: r4 => some ([(String.mk k, v)], r4)
             | _ => none)
        | _ => none
    | _ => none

end

/-- Model of `json.loads`: the whole input (modulo surrounding whitespace) must
be one JSON document, else the parse fails (`JSONDecodeError`). -/
def jsonParse (s : String) : Option Json :=
  match parseValue (2 * s.data.length + 8) s.data with
  | some (j, rest) => if (skipWs rest).isEmpty then some j else none
  | none => none

/-! ### Data model (`tables.py`, `memory_models.py`) -/

/-- One STM turn: `{"role", "content", "timestamp"}` as stored in Redis by
`append_stm_message`. -/
structure Turn where
  role : String
  content : String
  timestamp : Int
deriving DecidableEq

/-- `FactCreate` (pydantic input model for `add_fact`). -/
structure FactCreate where
  category : String
  value : String
  confidence_score : Rat
  source_message_id : Option Nat
  metadata : Json

/-- A row of the `facts` table (`FactModel`). -/
structure Fact where
  id : Nat
  user_id : Nat
  category : String
  value : String
  confidence_score : Rat
  source_message_id : Option Nat
  metadata_ : Json
  created_at : Int
  last_reinforced_at : Option Int
  reinforcement_count : Nat

/-- `EpisodicMemoryCreate` (pydantic input model for `create_episodic_memory`). -/
structure EpisodicMemoryCreate where
  content : String
  summary : String
  vector_id : Option Nat
  emotions : List String
  topics : List String
  importance_score : Rat
  context_type : Option String

/-- A row of the `episodic_memories` table (`EpisodicMemoryModel`). -/
structure EpisodicMemory where
  id : Nat
  user_id : Nat
  content : String
  summary : String
  vector_id : Option Nat
  emotions : List String
  topics : List String
  importance_score : Rat
  context_type : Option String
  decay_factor : Rat
  created_at : Int

/-! ### Working memory: Redis cache (`cache.py`, STM part of `memory_service.py`) -/

/-- `STM_TTL = 3600 * 4` seconds. -/
def STM_TTL : Nat := 3600 * 4

/-- One Redis key with its stored STM window and TTL.  The JSON
serialize/deserialize round-trip of the window is modelled as the identity. -/
structure CacheEntry where
  key : String
  value : List Turn
  ttl : Nat
deriving DecidableEq

/-- The Redis store.  `down = true` models an unavailable Redis: every `get`
and `set` raises. -/
structure CacheState where
  entries : List CacheEntry
  down : Bool
deriving DecidableEq

/-- `redis_client.get`: raises when Redis is down, else returns the stored
value if the key exists. -/
def cacheGet (c : CacheState) (k : String) : Except Unit (Option (List Turn)) :=
  if c.down then .error ()
  else .ok ((c.entries.find? (fun e => e.key == k)).map (·.value))

/-- First-match-or-append update of the entry list for a `SET`. -/
def setEntry (k : String) (v : List Turn) (ttl : Nat) : List CacheEntry → List CacheEntry
  | [] => [⟨k, v, ttl⟩]
  | e :: es => if e.key == k then ⟨k, v, ttl⟩ :: es else e :: setEntry k v ttl es

/-- `redis_client.set(key, value, expire)`: raises when Redis is down. -/
def cacheSet (c : CacheState) (k : String) (v : List Turn) (ttl : Nat) :
    Except Unit CacheState :=
  if c.down then .error ()
  else .ok { c with entries := setEntry k v ttl c.entries }

/-- Key format `stm:<user_id>`. -/
def stmKey (uid : Nat) : String := "stm:" ++ toString uid

/-- `MemoryService.get_stm_context`: returns the stored window; any Redis
exception is caught and an empty list returned. -/
def get_stm_context (c : CacheState) (uid : Nat) : List Turn :=
  match cacheGet c (stmKey uid) with
  | .error _ => []
  | .ok none => []
  | .ok (some v) => v

/-- `MemoryService.append_stm_message`: read the window, append the turn,
keep the last 20 entries, write back with `STM_TTL`; any Redis exception is
caught, leaving the store unchanged. -/
def append_stm_message (c : CacheState) (uid : Nat) (role content : String)
    (now : Int) : CacheState :=
  let current := get_stm_context c uid
  let current2 := current ++ [⟨role, content, now⟩]
  let current3 :=
    if 20 < current2.length then current2.drop (current2.length - 20) else current2
  match cacheSet c (stmKey uid) current3 STM_TTL with
  | .error _ => c
  | .ok c' => c'

/-- A sequence of `append_stm_message` calls for one user. -/
def runAppends (uid : Nat) : CacheState → List (String × String × Int) → CacheState
  | c, [] => c
  | c, (role, content, now) :: rest =>
    runAppends uid (append_stm_message c uid role content now) rest

/-- The Turn a `(role, content, timestamp)` triple is stored as. -/
def mkTurn : String × String × Int → Turn
  | (role, content, now) => ⟨role, content, now⟩

/-! ### Fact store (`add_fact`, `get_relevant_facts`) -/

/-- The dedup key of `add_fact`: exact match on `(user_id, category, value)`. -/
def keyMatch (uid : Nat) (cat v : String) (f : Fact) : Bool :=
  f.user_id == uid && f.category == cat && f.value == v

/-- The reinforcement update applied to an existing fact row: increment the
count, refresh the timestamp, replace the metadata.  All other columns are
untouched. -/
def reinforce (now : Int) (md : Json) (f : Fact) : Fact :=
  { f with reinforcement_count := f.reinforcement_count + 1,
           last_reinforced_at := some now,
           metadata_ := md }

/-- In-place mutation of the single row returned by `scalar_one_or_none`:
update the first row matching the predicate. -/
def updateFirst (p : Fact → Bool) (g : Fact → Fact) : List Fact → List Fact
  | [] => []
  | f :: fs => if p f then g f :: fs else f :: updateFirst p g fs

/-- The `facts` table plus the id sequence. -/
structure FactStore where
  facts : List Fact
  nextId : Nat

/-- `MemoryService.add_fact`: exact-match lookup on `(user_id, category, value)`;
reinforce the existing row if found, else insert a new row with
`reinforcement_count = 0` (column default).  Returns the affected row and the
new table state. -/
def add_fact (s : FactStore) (uid : Nat) (fd : FactCreate) (now : Int) :
    Fact × FactStore :=
  match s.facts.find? (keyMatch uid fd.category fd.value) with
  | some f =>
    (reinforce now fd.metadata f,
     { s with facts := updateFirst (keyMatch uid fd.category fd.value)
                         (reinforce now fd.metadata) s.facts })
  | none =>
    let nf : Fact :=
      { id := s.nextId, user_id := uid, category := fd.category, value := fd.value,
        confidence_score := fd.confidence_score,
        source_message_id := fd.source_message_id, metadata_ := fd.metadata,
        created_at := now, last_reinforced_at := none, reinforcement_count := 0 }
    (nf, { facts := s.facts ++ [nf], nextId := s.nextId + 1 })

/-- A sequence of `add_fact` calls for one user. -/
def runUpserts (uid : Nat) : FactStore → List (FactCreate × Int) → FactStore
  | s, [] => s
  | s, (fd, now) :: rest => runUpserts uid (add_fact s uid fd now).2 rest

/-- Stable insertion into a list sorted by `key` descending. -/
def insertDesc {α : Type} (key : α → Rat) (x : α) : List α → List α
  | [] => [x]
  | y :: ys => if key y < key x then x :: y :: ys else y :: insertDesc key x ys

/-- Stable sort by `key` descending (`ORDER BY ... DESC`, Qdrant ranking). -/
def sortByDesc {α : Type} (key : α → Rat) : List α → List α
  | [] => []
  | x :: xs => insertDesc key x (sortByDesc key xs)

/-- `MemoryService.get_relevant_facts`: the user's facts, optionally
category-filtered, ordered by `confidence_score` descending. -/
def get_relevant_facts (s : FactStore) (uid : Nat) (category : Option String) :
    List Fact :=
  let l := s.facts.filter (fun f => f.user_id == uid)
  let l := match category with
    | some c => l.filter (fun f => f.category == c)
    | none => l
  sortByDesc (·.confidence_score) l

/-! ### Vector index (`vector_db.py`) and episodic memory -/

/-- A Qdrant point: id shared with the relational row, embedding vector, and
the payload written by `create_episodic_memory`. -/
structure VPoint where
  id : Nat
  vector : List Rat
  user_id : Nat
  summary : String
  created_at : Int
  importance : Rat

/-- The Qdrant collection.  `up = false` models an unreachable client
(`self.client is None`, or any raised-and-caught exception). -/
structure VectorStore where
  points : List VPoint
  up : Bool

/-- Qdrant upsert semantics: a point replaces any existing point with the same
id, else is appended. -/
def upsertPoint (ps : List VPoint) (p : VPoint) : List VPoint :=
  if ps.any (fun q => q.id == p.id) then
    ps.map (fun q => if q.id == p.id then p else q)
  else ps ++ [p]

/-- `VectorDB.search` / Qdrant `query_points`: keep the user's points whose
similarity score is at least `score_threshold` (default `0.7` in the source),
rank by score descending, return the first `limit`.  The similarity score of a
point against the query embedding is the abstract `scoreOf` (the source
delegates scoring to Qdrant, configured with cosine distance). -/
def vdb_search (points : List VPoint) (scoreOf : VPoint → Rat) (limit : Nat)
    (score_threshold : Rat) (uid : Nat) : List VPoint :=
  ((points.filter (fun p => p.user_id == uid && decide (score_threshold ≤ scoreOf p)))
    |> sortByDesc scoreOf).take limit

/-- The `episodic_memories` table plus the id sequence. -/
structure EpisodicStore where
  rows : List EpisodicMemory
  nextId : Nat

/-- `MemoryService.create_episodic_memory`: insert and commit the relational
row first, then upsert the vector point with the same id; a vector-side
failure is swallowed (`upsert_vectors` catches every exception, and is a no-op
when the client is unavailable).  Returns the committed row and both stores. -/
def create_episodic_memory (es : EpisodicStore) (vs : VectorStore) (uid : Nat)
    (md : EpisodicMemoryCreate) (embedding : List Rat) (now : Int) :
    EpisodicMemory × EpisodicStore × VectorStore :=
  let row : EpisodicMemory :=
    { id := es.nextId, user_id := uid, content := md.content, summary := md.summary,
      vector_id := none, emotions := md.emotions, topics := md.topics,
      importance_score := md.importance_score, context_type := md.context_type,
      decay_factor := 1, created_at := now }
  let es' : EpisodicStore := { rows := es.rows ++ [row], nextId := es.nextId + 1 }
  let point : VPoint :=
    { id := row.id, vector := embedding, user_id := uid, summary := md.summary,
      created_at := now, importance := md.importance_score }
  let vs' := if vs.up then { vs with points := upsertPoint vs.points point } else vs
  (row, es', vs')

/-- `MemoryService.search_memories`: vector search with the default threshold
`0.7` (not overridden by the caller), then hydrate each hit id against the
relational rows (`WHERE id IN ...` then a dict lookup per hit, preserving the
vector-search rank order; unresolved ids are skipped). -/
def search_memories (rows : List EpisodicMemory) (vs : VectorStore)
    (scoreOf : VPoint → Rat) (uid : Nat) (limit : Nat := 3) : List EpisodicMemory :=
  let results :=
    if vs.up then vdb_search vs.points scoreOf limit (mkRat 7 10) uid else []
  match results with
  | [] => []
  | _ =>
    let memory_ids := results.map (·.id)
    let memories := rows.filter (fun m => memory_ids.contains m.id)
    memory_ids.filterMap (fun rid => memories.find? (fun m => m.id == rid))

/-! ### Chat service: freshness signal and reply generation (`chat_service.py`) -/

/-- One STM turn formatted for the prompt. -/
def formatTurn (t : Turn) : String :=
  (if t.role == "user" then "[PROFESIONAL]: " else "[COMPY]: ") ++ t.content

/-- Python `sep.join(parts)`. -/
def joinStrings (sep : String) : List String → String
  | [] => ""
  | [s] => s
  | s :: rest => s ++ sep ++ joinStrings sep rest

/-- The `chat_history_str` built by `generate_response`: the formatted window,
or the sentinel when no prior turns exist. -/
def chatHistoryStr : List Turn → String
  | [] => "(No previous history)"
  | t :: ts => joinStrings "\n" ((t :: ts).map formatTurn)

/-- The `is_fresh_session` flag: starts true, cleared when the last turn is
less than 30 minutes (1800 s) old. -/
def isFreshSession (stm : List Turn) (now : Int) : Bool :=
  match stm.getLast? with
  | none => true
  | some t => !(decide (now - t.timestamp < 1800))

/-- The stale-session note appended to the system prompt. -/
def staleNote : String :=
  "\n[SYSTEM NOTE]: Some time has passed. Briefly acknowledge the gap without a full greeting if the conversation is ongoing."

/-- The brand-new-session greeting note appended to the system prompt. -/
def newSessionNote : String :=
  "\n[SYSTEM NOTE]: Brand new session. Greet the user by name exactly as requested."

/-- The `session_instruction` computed by `generate_response`: a pure function
of the STM window and the current time. -/
def sessionInstruction (stm : List Turn) (now : Int) : String :=
  if isFreshSession stm now && !(chatHistoryStr stm == "(No previous history)") then
    staleNote
  else if isFreshSession stm now then
    newSessionNote
  else ""

/-- The language-model capability, reduced to its outcome for one turn:
`none` models `generate` / `get_embedding` raising, `some` a successful
result (the completion text is an input of the model, since every provider is
behind the `generate(system, user) -> text` interface). -/
structure LLMStub where
  embed : Option (List Rat)
  generate : Option String

/-- A row of the `chat_messages` table, as written by `generate_response`. -/
structure ChatMessage where
  conversation_id : Nat
  role : String
  content : String
deriving DecidableEq

/-- The chat tables: `(conversation id, user id)` pairs plus persisted
messages. -/
structure ChatDb where
  conversations : List (Nat × Nat)
  nextConvId : Nat
  messages : List ChatMessage

/-- `ChatService.get_or_create_conversation`: return the user's existing
conversation, or insert and commit a fresh one. -/
def get_or_create_conversation (db : ChatDb) (uid : Nat) : Nat × ChatDb :=
  match db.conversations.find? (fun c => c.2 == uid) with
  | some c => (c.1, db)
  | none =>
    (db.nextConvId,
     { db with conversations := db.conversations ++ [(db.nextConvId, uid)],
               nextConvId := db.nextConvId + 1 })

/-- The canned reply returned by the outer `except` of
`ChatService.generate_response`. -/
def apologyMessage : String :=
  "I apologize, but I'm having trouble connecting to my memory banks right now. Please try again in a moment."

/-- `ChatService.generate_response`: the whole body runs inside one
`try/except`; any raised exception (user missing, embedding call, generation
call) is caught and the fixed apology string returned as the reply.  On
success with a real user message, the exchange is appended to the STM window
and the two chat messages committed; the reply is `response_text.strip()`.
`sim q` is the abstract similarity score of a stored point against the query
embedding `q` (scoring lives in Qdrant). -/
def generate_response (llm : LLMStub) (sim : List Rat → VPoint → Rat)
    (userFound : Bool) (uid : Nat) (message : String) (cache : CacheState)
    (db : ChatDb) (fs : FactStore) (es : EpisodicStore) (vs : VectorStore)
    (now : Int) : String × CacheState × ChatDb :=
  if !userFound then (apologyMessage, cache, db)
  else
    let conv := get_or_create_conversation db uid
    let convId := conv.1
    let db1 := conv.2
    let stm := get_stm_context cache uid
    let facts := get_relevant_facts fs uid none
    let facts_str := joinStrings "\n"
      ((facts.take 5).map (fun f => "- [" ++ f.category ++ "] " ++ f.value))
    match llm.embed with
    | none => (apologyMessage, cache, db1)
    | some q =>
      let mems := search_memories es.rows vs (sim q) uid 3
      let instr := sessionInstruction stm now
      match llm.generate with
      | none => (apologyMessage, cache, db1)
      | some txt =>
        if message == "START_SESSION" then (pyStrip txt, cache, db1)
        else
          let cache1 := append_stm_message cache uid "user" message now
          let cache2 := append_stm_message cache1 uid "assistant" txt now
          let db2 :=
            { db1 with messages := db1.messages ++
                [⟨convId, "user", message⟩, ⟨convId, "assistant", pyStrip txt⟩] }
          (pyStrip txt, cache2, db2)

/-! ### Consolidation pipeline (`process_conversation_background`) -/

/-- The dict returned by `process_conversation_background`, restricted to the
outcomes reachable from the LLM response onward: `success` with the fact and
memory counters, or `error` with the exception string (the exact Python
exception texts are modelled by fixed tags). -/
inductive BgResult where
  | success (factsCount memsCount : Nat)
  | error (message : String)
deriving DecidableEq

/-- The fence-stripping applied to the model output before `json.loads`:
`response_json.replace("```json", "").replace("```", "").strip()`. -/
def stripFences (s : String) : String :=
  pyStrip (pyReplace (pyReplace s "```json" "") "```" "")

/-- The allowed `FactCategory` literals of the pydantic model. -/
def validCategories : List String :=
  ["preference", "biographical", "goal", "medical", "relational", "work"]

/-- The allowed `EmotionType` literals of the pydantic model. -/
def validEmotions : List String :=
  ["joy", "sadness", "anger", "fear", "anxiety", "neutral", "relief"]

/-- Build the `FactCreate` for one extracted fact dict, with pydantic
validation: `category` defaults to `"general"` when absent but must then be
one of the `FactCategory` literals, `value` must be a string, `confidence`
defaults to `0.5` and must be a number in `[0, 1]`.  `none` models a raised
`ValidationError` (or an `AttributeError` on a non-dict element). -/
def asFactCreate (j : Json) : Option FactCreate :=
  match j with
  | .obj _ =>
    let cat? : Option String :=
      match j.getField "category" with
      | none => some "general"
      | some (.str s) => some s
      | some _ => none
    match cat? with
    | none => none
    | some c =>
      if validCategories.contains c then
        match j.getField "value" with
        | some (.str v) =>
          let conf? : Option Rat :=
            match j.getField "confidence" with
            | none => some (mkRat 1 2)
            | some (.num q) => if 0 ≤ q ∧ q ≤ 1 then some q else none
            | some _ => none
          conf?.map (fun q =>
            { category := c, value := v, confidence_score := q,
              source_message_id := none, metadata := .obj [] })
        | _ => none
      else none
  | _ => none

/-- The `PERSIST_FACTS` loop: one `add_fact` (each committing) per candidate;
a validation failure raises out of the loop, keeping the facts already
committed.  Returns the table state reached and whether the loop completed. -/
def persistFacts (uid : Nat) (now : Int) : List Json → FactStore → FactStore × Bool
  | [], s => (s, true)
  | j :: js, s =>
    match asFactCreate j with
    | none => (s, false)
    | some fc => persistFacts uid now js (add_fact s uid fc now).2

/-- Build the `EpisodicMemoryCreate` for the extracted memory dict, with
pydantic validation: `content` and `summary` must be strings, `emotions`
defaults to `[]` and must be a list of `EmotionType` literals, `importance`
defaults to `0.5` and must be a number in `[0, 1]`;
`context_type = "conversation_fragment"`. -/
def asEpisodicCreate (j : Json) : Option EpisodicMemoryCreate :=
  match j with
  | .obj _ =>
    match j.getField "content", j.getField "summary" with
    | some (.str content), some (.str summary) =>
      let emos? : Option (List String) :=
        match j.getField "emotions" with
        | none => some []
        | some (.arr es) =>
          es.foldr (fun e acc =>
            match e, acc with
            | .str s, some l => if validEmotions.contains s then some (s :: l) else none
            | _, _ => none) (some [])
        | some _ => none
      match emos? with
      | none => none
      | some emos =>
        let imp? : Option Rat :=
          match j.getField "importance" with
          | none => some (mkRat 1 2)
          | some (.num q) => if 0 ≤ q ∧ q ≤ 1 then some q else none
          | some _ => none
        imp?.map (fun q =>
          { content := content, summary := summary, vector_id := none,
            emotions := emos, topics := [],
            importance_score := q, context_type := some "conversation_fragment" })
    | _, _ => none
  | _ => none

/-- The try-block of `process_conversation_background` from the LLM response
onward: strip code fences, `json.loads`, persist the facts, persist the
optional episodic memory.  Any raised exception is caught by the `except`
and yields the error dict; a parse failure happens before any persistence. -/
def processLlmResponse (uid : Nat) (response : String) (embed : String → List Rat)
    (fs : FactStore) (es : EpisodicStore) (vs : VectorStore) (now : Int) :
    BgResult × FactStore × EpisodicStore × VectorStore :=
  let cleaned := stripFences response
  match jsonParse cleaned with
  | none => (.error "JSONDecodeError", fs, es, vs)
  | some data =>
    match data with
    | .obj _ =>
      match (data.getField "facts").getD (.arr []) with
      | .arr factJs =>
        match persistFacts uid now factJs fs with
        | (fs', false) => (.error "ValidationError", fs', es, vs)
        | (fs', true) =>
          match data.getField "memory" with
          | none => (.success factJs.length 0, fs', es, vs)
          | some memJ =>
            if jsonTruthy memJ then
              match asEpisodicCreate memJ with
              | none => (.error "ValidationError", fs', es, vs)
              | some mc =>
                let emb := embed (mc.summary ++ " " ++ mc.content)
                let r := create_episodic_memory es vs uid mc emb now
                (.success factJs.length 1, fs', r.2.1, r.2.2)
            else (.success factJs.length 0, fs', es, vs)
      | _ => (.error "TypeError", fs, es, vs)
    | _ => (.error "AttributeError", fs, es, vs)

/-- Modelled from the spec: the repository has no best-effort substring
extraction for malformed JSON (that step of the spec is not in the source);
this follows the spec's words "recover from malformed JSON by best-effort
substring extraction" — take the substring from the first opening brace to
the last closing brace and parse it. -/
def bestEffortJsonSubstring (s : String) : Option Json :=
  let cs := s.data.dropWhile (fun c => !(c == '\x7b'))
  let cs := (cs.reverse.dropWhile (fun c => !(c == '\x7d'))).reverse
  if cs.isEmpty then none else jsonParse (String.mk cs)

end App

namespace App

/-! ### Helper lemmas -/

/-- An empty filter result means `find?` fails. -/
theorem filter_eq_nil_find? {α : Type} {p : α → Bool} {l : List α}
    (h : l.filter p = []) : l.find? p = none := by
  rw [List.find?_eq_none]
  intro x hx
  have := List.filter_eq_nil_iff.mp h x hx
  simpa using this

/-- A singleton filter result is what `find?` returns. -/
theorem filter_singleton_find? {α : Type} {p : α → Bool} {l : List α} {f : α}
    (h : l.filter p = [f]) : l.find? p = some f := by
  induction l with
  | nil => simp at h
  | cons a as ih =>
    cases hpa : p a with
    | true =>
      rw [List.filter_cons, if_pos hpa] at h
      injection h with h1 h2
      subst h1
      simp [List.find?_cons, hpa]
    | false =>
      rw [List.filter_cons, if_neg (by simp [hpa])] at h
      simp [List.find?_cons, hpa, ih h]

/-- Updating the unique row matching `p` by a `p`-preserving `g` leaves a
singleton filter result. -/
theorem filter_updateFirst {p : Fact → Bool} {g : Fact → Fact} {l : List Fact}
    {f : Fact} (h : l.filter p = [f]) (hg : p (g f) = true) :
    (updateFirst p g l).filter p = [g f] := by
  induction l with
  | nil => simp at h
  | cons a as ih =>
    cases hpa : p a with
    | true =>
      rw [List.filter_cons, if_pos hpa] at h
      injection h with h1 h2
      subst h1
      simp [updateFirst, hpa, List.filter_cons, hg, h2]
    | false =>
      rw [List.filter_cons, if_neg (by simp [hpa])] at h
      simp [updateFirst, hpa, List.filter_cons, ih h]

/-- The updated row is in the table after `updateFirst`. -/
theorem find?_mem_updateFirst {p : Fact → Bool} {g : Fact → Fact} {l : List Fact}
    {f : Fact} (h : l.find? p = some f) : g f ∈ updateFirst p g l := by
  induction l with
  | nil => simp at h
  | cons a as ih =>
    cases hpa : p a with
    | true =>
      rw [List.find?_cons_of_pos as hpa] at h
      injection h with h1
      subst h1
      simp [updateFirst, hpa]
    | false =>
      rw [List.find?_cons_of_neg as (by simp [hpa])] at h
      simp [updateFirst, hpa, ih h]

/-- Reinforcing a row does not change its dedup key. -/
theorem keyMatch_reinforce (uid : Nat) (cat v : String) (now : Int) (md : Json)
    (f : Fact) : keyMatch uid cat v (reinforce now md f) = keyMatch uid cat v f := rfl

/-- Invariant of repeated upserts on one key: a unique matching row stays
unique and its reinforcement count grows by one per call. -/
theorem upserts_singleton_inv (uid : Nat) (cat v : String)
    (calls : List (FactCreate × Int)) :
    ∀ (s : FactStore) (f : Fact),
      (∀ cl ∈ calls, cl.1.category = cat ∧ cl.1.value = v) →
      s.facts.filter (keyMatch uid cat v) = [f] →
      ∃ g, (runUpserts uid s calls).facts.filter (keyMatch uid cat v) = [g] ∧
        g.reinforcement_count = f.reinforcement_count + calls.length := by
  induction calls with
  | nil => exact fun s f _ hf => ⟨f, hf, by simp [runUpserts]⟩
  | cons cl rest ih =>
    intro s f hkey hf
    obtain ⟨fd, now⟩ := cl
    obtain ⟨hc, hv⟩ : fd.category = cat ∧ fd.value = v := hkey (fd, now) (by simp)
    have hfind : s.facts.find? (keyMatch uid fd.category fd.value) = some f := by
      rw [hc, hv]; exact filter_singleton_find? hf
    have hpf : keyMatch uid cat v f = true := by
      have hmem : f ∈ s.facts.filter (keyMatch uid cat v) := by rw [hf]; simp
      exact (List.mem_filter.mp hmem).2
    have hstep : (add_fact s uid fd now).2.facts.filter (keyMatch uid cat v)
        = [reinforce now fd.metadata f] := by
      simp only [add_fact, hfind]
      rw [hc, hv]
      exact filter_updateFirst hf (by rw [keyMatch_reinforce]; exact hpf)
    obtain ⟨g, hg1, hg2⟩ := ih (add_fact s uid fd now).2 (reinforce now fd.metadata f)
      (fun c hc' => hkey c (by simp [hc'])) hstep
    refine ⟨g, ?_, ?_⟩
    · simpa [runUpserts] using hg1
    · rw [hg2]; simp [reinforce]; omega

/-! ### Claim theorems: fact store -/

/-- Claim C1: for every `(user_id, category, value)` key, upserting N ≥ 1 times
with that key (other fields arbitrary) starting from a table with no row for
the key yields exactly one matching Fact row, whose `reinforcement_count` is
N − 1: the first call inserts with count 0, each repeat reinforces the
existing row instead of inserting. -/
theorem fact_upsert_idempotent (s0 : FactStore) (uid : Nat) (cat v : String)
    (calls : List (FactCreate × Int))
    (hne : calls ≠ [])
    (hkey : ∀ cl ∈ calls, cl.1.category = cat ∧ cl.1.value = v)
    (h0 : s0.facts.filter (keyMatch uid cat v) = []) :
    ((runUpserts uid s0 calls).facts.filter (keyMatch uid cat v)).length = 1 ∧
    ∀ g ∈ (runUpserts uid s0 calls).facts.filter (keyMatch uid cat v),
      g.reinforcement_count = calls.length - 1 := by
  cases calls with
  | nil => exact absurd rfl hne
  | cons cl rest =>
    obtain ⟨fd, now⟩ := cl
    obtain ⟨hc, hv⟩ : fd.category = cat ∧ fd.value = v := hkey (fd, now) (by simp)
    have hfind : s0.facts.find? (keyMatch uid fd.category fd.value) = none := by
      rw [hc, hv]; exact filter_eq_nil_find? h0
    have h1 : (add_fact s0 uid fd now).1.reinforcement_count = 0 := by
      simp [add_fact, hfind]
    have hstep : (add_fact s0 uid fd now).2.facts.filter (keyMatch uid cat v)
        = [(add_fact s0 uid fd now).1] := by
      simp only [add_fact, hfind]
      rw [List.filter_append, h0]
      simp [keyMatch, hc, hv]
    obtain ⟨g, hg1, hg2⟩ := upserts_singleton_inv uid cat v rest
      (add_fact s0 uid fd now).2 (add_fact s0 uid fd now).1
      (fun c hc' => hkey c (by simp [hc'])) hstep
    have hrun : runUpserts uid s0 ((fd, now) :: rest)
        = runUpserts uid (add_fact s0 uid fd now).2 rest := rfl
    rw [hrun, hg1]
    refine ⟨rfl, ?_⟩
    intro g' hg'
    have : g' = g := by simpa using hg'
    subst this
    rw [hg2, h1]
    simp

/-- Witness for C1: three identical upserts of
`(user 1, "preference", "prefers concise answers")` on an empty table leave
exactly one row with `reinforcement_count = 2`. -/
theorem fact_upsert_idempotent_witness :
    (((runUpserts 1 ⟨[], 0⟩
        [(⟨"preference", "prefers concise answers", mkRat 9 10, none, .null⟩, 0),
         (⟨"preference", "prefers concise answers", mkRat 9 10, none, .null⟩, 60),
         (⟨"preference", "prefers concise answers", mkRat 9 10, none, .null⟩, 120)]).facts.filter
        (keyMatch 1 "preference" "prefers concise answers")).length = 1) ∧
    ∀ g ∈ (runUpserts 1 ⟨[], 0⟩
        [(⟨"preference", "prefers concise answers", mkRat 9 10, none, .null⟩, 0),
         (⟨"preference", "prefers concise answers", mkRat 9 10, none, .null⟩, 60),
         (⟨"preference", "prefers concise answers", mkRat 9 10, none, .null⟩, 120)]).facts.filter
        (keyMatch 1 "preference" "prefers concise answers"),
      g.reinforcement_count = 3 - 1 :=
  fact_upsert_idempotent ⟨[], 0⟩ 1 "preference" "prefers concise answers" _
    (by simp) (by simp) rfl

/-- Claim C2: reinforcing an existing fact (same `(user_id, category, value)`,
any new confidence and metadata) replaces the metadata, refreshes
`last_reinforced_at`, increments `reinforcement_count`, and leaves the row's
`confidence_score`, `value`, `category`, `id` and `created_at` unchanged; the
updated row is in the table. -/
theorem fact_reinforce_frame (s : FactStore) (uid : Nat) (f : Fact)
    (fd : FactCreate) (now : Int)
    (hfind : s.facts.find? (keyMatch uid fd.category fd.value) = some f) :
    (add_fact s uid fd now).1.metadata_ = fd.metadata ∧
    (add_fact s uid fd now).1.last_reinforced_at = some now ∧
    (add_fact s uid fd now).1.reinforcement_count = f.reinforcement_count + 1 ∧
    (add_fact s uid fd now).1.confidence_score = f.confidence_score ∧
    (add_fact s uid fd now).1.value = f.value ∧
    (add_fact s uid fd now).1.category = f.category ∧
    (add_fact s uid fd now).1.id = f.id ∧
    (add_fact s uid fd now).1.created_at = f.created_at ∧
    (add_fact s uid fd now).1 ∈ (add_fact s uid fd now).2.facts := by
  have h1 : (add_fact s uid fd now).1 = reinforce now fd.metadata f := by
    simp [add_fact, hfind]
  have h2 : (add_fact s uid fd now).2.facts
      = updateFirst (keyMatch uid fd.category fd.value)
          (reinforce now fd.metadata) s.facts := by
    simp [add_fact, hfind]
  rw [h1, h2]
  exact ⟨rfl, rfl, rfl, rfl, rfl, rfl, rfl, rfl, find?_mem_updateFirst hfind⟩

/-- Witness for C2, the concrete scenario of the spec: after
`upsert(1, "preference", "prefers concise answers", 0.9)`, a second upsert
with confidence 0.5 and new metadata yields `reinforcement_count = 1`,
metadata from the second call, and `confidence_score` unchanged at 0.9. -/
theorem fact_reinforce_frame_witness :
    (add_fact
      ⟨[⟨0, 1, "preference", "prefers concise answers", mkRat 9 10, none,
          .obj [("source", .str "first")], 0, none, 0⟩], 1⟩
      1 ⟨"preference", "prefers concise answers", mkRat 1 2, none,
          .obj [("source", .str "second")]⟩ 60).1.metadata_
        = .obj [("source", .str "second")] ∧
    (add_fact
      ⟨[⟨0, 1, "preference", "prefers concise answers", mkRat 9 10, none,
          .obj [("source", .str "first")], 0, none, 0⟩], 1⟩
      1 ⟨"preference", "prefers concise answers", mkRat 1 2, none,
          .obj [("source", .str "second")]⟩ 60).1.reinforcement_count = 0 + 1 ∧
    (add_fact
      ⟨[⟨0, 1, "preference", "prefers concise answers", mkRat 9 10, none,
          .obj [("source", .str "first")], 0, none, 0⟩], 1⟩
      1 ⟨"preference", "prefers concise answers", mkRat 1 2, none,
          .obj [("source", .str "second")]⟩ 60).1.confidence_score = mkRat 9 10 := by
  have h := fact_reinforce_frame
    ⟨[⟨0, 1, "preference", "prefers concise answers", mkRat 9 10, none,
        .obj [("source", .str "first")], 0, none, 0⟩], 1⟩
    1 ⟨0, 1, "preference", "prefers concise answers", mkRat 9 10, none,
        .obj [("source", .str "first")], 0, none, 0⟩
    ⟨"preference", "prefers concise answers", mkRat 1 2, none,
        .obj [("source", .str "second")]⟩ 60 rfl
  exact ⟨h.1, h.2.2.1, h.2.2.2.1⟩

/-! ### Claim theorems: working memory fail-soft -/

/-- Claim C7: when the cache is unavailable (every `get`/`set` raises), STM
read returns the empty sequence and STM append is a no-op; neither operation
propagates an error. -/
theorem stm_fail_soft (c : CacheState) (uid : Nat) (role content : String)
    (now : Int) (h : c.down = true) :
    get_stm_context c uid = [] ∧ append_stm_message c uid role content now = c := by
  constructor
  · simp [get_stm_context, cacheGet, h]
  · simp [append_stm_message, cacheSet, h]

/-- Witness for C7: a concrete down cache holding a window for user 1. -/
theorem stm_fail_soft_witness :
    get_stm_context ⟨[⟨"stm:1", [⟨"user", "hello", 0⟩], STM_TTL⟩], true⟩ 1 = [] ∧
    append_stm_message ⟨[⟨"stm:1", [⟨"user", "hello", 0⟩], STM_TTL⟩], true⟩ 1
        "user" "hi again" 60
      = ⟨[⟨"stm:1", [⟨"user", "hello", 0⟩], STM_TTL⟩], true⟩ :=
  stm_fail_soft ⟨[⟨"stm:1", [⟨"user", "hello", 0⟩], STM_TTL⟩], true⟩ 1
    "user" "hi again" 60 rfl


/-! ### Claim theorems: working-memory window cap -/

/-- `setEntry` stores the value under the key, replacing any previous entry. -/
theorem setEntry_find (k : String) (v : List Turn) (ttl : Nat)
    (l : List CacheEntry) :
    (setEntry k v ttl l).find? (fun e => e.key == k) = some ⟨k, v, ttl⟩ := by
  induction l with
  | nil => simp [setEntry]
  | cons e es ih =>
    cases hk : e.key == k with
    | true => simp [setEntry, hk, List.find?_cons]
    | false => simp [setEntry, hk, List.find?_cons, ih]

/-- Appending never changes the availability flag of the cache. -/
theorem append_down (c : CacheState) (uid : Nat) (role content : String)
    (now : Int) : (append_stm_message c uid role content now).down = c.down := by
  cases h : c.down <;> simp [append_stm_message, cacheSet, h]

/-- Reading after a successful append returns the appended-then-truncated
window. -/
theorem read_append (c : CacheState) (uid : Nat) (role content : String)
    (now : Int) (h : c.down = false) :
    get_stm_context (append_stm_message c uid role content now) uid =
      (if 20 < (get_stm_context c uid ++ [Turn.mk role content now]).length
       then (get_stm_context c uid ++ [Turn.mk role content now]).drop
              ((get_stm_context c uid ++ [Turn.mk role content now]).length - 20)
       else get_stm_context c uid ++ [Turn.mk role content now]) := by
  simp only [append_stm_message, cacheSet, h]
  simp [get_stm_context, cacheGet, setEntry_find, h]

/-- Truncating an already-truncated window after one append equals truncating
the full history after that append. -/
theorem window_step (L : List Turn) (t : Turn) :
    (if 20 < (L.drop (L.length - 20) ++ [t]).length
     then (L.drop (L.length - 20) ++ [t]).drop
            ((L.drop (L.length - 20) ++ [t]).length - 20)
     else L.drop (L.length - 20) ++ [t])
    = (L ++ [t]).drop ((L ++ [t]).length - 20) := by
  rcases le_or_lt L.length 20 with h | h
  · have h0 : L.length - 20 = 0 := by omega
    rw [h0, List.drop_zero]
    rcases le_or_lt (L ++ [t]).length 20 with h1 | h1
    · rw [if_neg (by omega)]
      have h2 : (L ++ [t]).length - 20 = 0 := by omega
      rw [h2, List.drop_zero]
    · rw [if_pos h1]
  · have hw : (L.drop (L.length - 20)).length = 20 := by
      rw [List.length_drop]; omega
    have hlen : (L.drop (L.length - 20) ++ [t]).length = 21 := by
      rw [List.length_append, hw]; rfl
    rw [if_pos (by omega), hlen]
    rw [List.drop_append_of_le_length (by omega : 21 - 20 ≤ (L.drop (L.length - 20)).length)]
    rw [List.drop_drop]
    have hr : (L ++ [t]).length - 20 = L.length + 1 - 20 := by
      rw [List.length_append]; rfl
    rw [hr, List.drop_append_of_le_length (by omega : L.length + 1 - 20 ≤ L.length)]
    congr 2
    omega

/-- Invariant of a run of appends: if the current window is the truncation of
some history `L`, the window after the run is the truncation of `L` extended
by the appended turns. -/
theorem run_appends_window (uid : Nat) (msgs : List (String × String × Int)) :
    ∀ (c : CacheState) (L : List Turn), c.down = false →
      get_stm_context c uid = L.drop (L.length - 20) →
      get_stm_context (runAppends uid c msgs) uid =
        (L ++ msgs.map mkTurn).drop ((L ++ msgs.map mkTurn).length - 20) := by
  induction msgs with
  | nil =>
    intro c L h hread
    simpa [runAppends] using hread
  | cons m rest ih =>
    intro c L h hread
    obtain ⟨role, content, now⟩ := m
    have hstep := read_append c uid role content now h
    rw [hread, window_step L (Turn.mk role content now)] at hstep
    have hdown : (append_stm_message c uid role content now).down = false := by
      rw [append_down]; exact h
    have hrec := ih (append_stm_message c uid role content now)
      (L ++ [Turn.mk role content now]) hdown hstep
    rw [show runAppends uid c ((role, content, now) :: rest)
        = runAppends uid (append_stm_message c uid role content now) rest from rfl]
    rw [hrec]
    simp [mkTurn, List.append_assoc]

/-- Claim C3: after any finite sequence of appends for a user, starting from
an available cache with no window, the STM read returns at most 20 Turns, and
exactly the most recently appended turns in insertion order (literal history:
duplicates are kept, nothing is deduplicated). -/
theorem stm_window_cap (c0 : CacheState) (uid : Nat)
    (msgs : List (String × String × Int))
    (hdown : c0.down = false) (h0 : get_stm_context c0 uid = []) :
    (get_stm_context (runAppends uid c0 msgs) uid).length ≤ 20 ∧
    get_stm_context (runAppends uid c0 msgs) uid =
      (msgs.map mkTurn).drop (msgs.length - 20) := by
  have h := run_appends_window uid msgs c0 [] hdown (by simpa using h0)
  simp only [List.nil_append, List.length_map] at h
  refine ⟨?_, h⟩
  rw [h, List.length_drop, List.length_map]
  omega

/-- Witness for C3: three appends (with a duplicated turn) for user 1 on an
empty cache read back in insertion order, within the cap. -/
theorem stm_window_cap_witness :
    (get_stm_context (runAppends 1 ⟨[], false⟩
        [("user", "a", 0), ("assistant", "b", 1), ("user", "a", 2)]) 1).length ≤ 20 ∧
    get_stm_context (runAppends 1 ⟨[], false⟩
        [("user", "a", 0), ("assistant", "b", 1), ("user", "a", 2)]) 1 =
      ([("user", "a", 0), ("assistant", "b", 1), ("user", "a", 2)].map mkTurn).drop
        ([("user", "a", 0), ("assistant", "b", 1), ("user", "a", 2)].length - 20) :=
  stm_window_cap ⟨[], false⟩ 1
    [("user", "a", 0), ("assistant", "b", 1), ("user", "a", 2)] rfl rfl


/-! ### Claim theorems: episodic recall and store -/

/-- Membership in a stable descending insertion. -/
theorem mem_insertDesc {α : Type} (key : α → Rat) (x a : α) :
    ∀ l : List α, a ∈ insertDesc key x l ↔ a = x ∨ a ∈ l := by
  intro l
  induction l with
  | nil => simp [insertDesc]
  | cons y ys ih =>
    by_cases hk : key y < key x
    · simp [insertDesc, hk, List.mem_cons]
    · simp [insertDesc, hk, List.mem_cons, ih]
      tauto

/-- Sorting by score is a permutation for membership purposes. -/
theorem mem_sortByDesc {α : Type} (key : α → Rat) (a : α) :
    ∀ l : List α, a ∈ sortByDesc key l ↔ a ∈ l := by
  intro l
  induction l with
  | nil => simp [sortByDesc]
  | cons x xs ih => simp [sortByDesc, mem_insertDesc, ih, List.mem_cons]

/-- Every hit of the vector search scores at least the threshold and belongs
to the filtered user. -/
theorem vdb_search_threshold (points : List VPoint) (scoreOf : VPoint → Rat)
    (limit : Nat) (thr : Rat) (uid : Nat) :
    ∀ p ∈ vdb_search points scoreOf limit thr uid,
      thr ≤ scoreOf p ∧ p.user_id = uid := by
  intro p hp
  unfold vdb_search at hp
  have h1 := List.mem_of_mem_take hp
  rw [mem_sortByDesc] at h1
  have h2 := (List.mem_filter.mp h1).2
  simp only [Bool.and_eq_true, beq_iff_eq, decide_eq_true_eq] at h2
  exact ⟨h2.2, h2.1⟩

/-- Filtering by a predicate implied by the search predicate does not change
`find?`. -/
theorem find?_filter_of_imp {α : Type} {p q : α → Bool}
    (h : ∀ x, p x = true → q x = true) :
    ∀ l : List α, (l.filter q).find? p = l.find? p := by
  intro l
  induction l with
  | nil => simp
  | cons a as ih =>
    cases hq : q a with
    | true =>
      cases hp : p a with
      | true => simp [List.filter_cons, hq, List.find?_cons, hp]
      | false => simp [List.filter_cons, hq, List.find?_cons, hp, ih]
    | false =>
      have hp : p a = false := by
        cases hpa : p a with
        | false => rfl
        | true => rw [h a hpa] at hq; exact absurd hq (by simp)
      simp [List.filter_cons, hq, List.find?_cons, hp, ih]

/-- A `filterMap` only depends on the function's values on the list. -/
theorem filterMap_congr_mem {α β : Type} {f g : α → Option β} :
    ∀ {l : List α}, (∀ a ∈ l, f a = g a) → l.filterMap f = l.filterMap g := by
  intro l
  induction l with
  | nil => intro _; rfl
  | cons a as ih =>
    intro h
    rw [List.filterMap_cons, List.filterMap_cons, h a (by simp),
        ih (fun x hx => h x (by simp [hx]))]

/-- Hydrating a list of hit ids keeps, in order, exactly the ids that resolve
to a relational row. -/
theorem filterMap_find_map_id (rows : List EpisodicMemory) :
    ∀ ids : List Nat,
      ((ids.filterMap (fun rid => rows.find? (fun m => m.id == rid))).map (·.id))
        = ids.filter (fun rid => (rows.find? (fun m => m.id == rid)).isSome) := by
  intro ids
  induction ids with
  | nil => simp
  | cons rid ids ih =>
    cases h : rows.find? (fun m => m.id == rid) with
    | none => simp [List.filterMap_cons, h, List.filter_cons, ih]
    | some m =>
      have hm : m.id = rid := by
        have := List.find?_some h
        simpa using this
      simp [List.filterMap_cons, h, List.filter_cons, ih, hm]

/-- The hydrated recall result, by ids: the vector-search rank order with the
unresolved (orphaned) ids dropped. -/
theorem search_memories_spec (rows : List EpisodicMemory) (vs : VectorStore)
    (scoreOf : VPoint → Rat) (uid limit : Nat) (hup : vs.up = true) :
    (search_memories rows vs scoreOf uid limit).map (·.id)
      = ((vdb_search vs.points scoreOf limit (mkRat 7 10) uid).map (·.id)).filter
          (fun rid => (rows.find? (fun m => m.id == rid)).isSome) := by
  unfold search_memories
  rw [hup]
  simp only [if_true]
  cases hr : vdb_search vs.points scoreOf limit (mkRat 7 10) uid with
  | nil => simp
  | cons p ps =>
    simp only []
    have hcongr :
        ((p :: ps).map (·.id)).filterMap
            (fun rid => ((rows.filter
                (fun m => ((p :: ps).map (·.id)).contains m.id)).find?
              (fun m => m.id == rid)))
          = ((p :: ps).map (·.id)).filterMap
              (fun rid => rows.find? (fun m => m.id == rid)) := by
      apply filterMap_congr_mem
      intro rid hrid
      apply find?_filter_of_imp
      intro m hm
      have hmid : m.id = rid := by simpa using hm
      have : m.id ∈ (p :: ps).map (·.id) := by rw [hmid]; exact hrid
      simpa [List.contains] using List.elem_iff.mpr this
    rw [hcongr, filterMap_find_map_id]

/-- Every hydrated recall result is a row of the relational store. -/
theorem search_memories_mem (rows : List EpisodicMemory) (vs : VectorStore)
    (scoreOf : VPoint → Rat) (uid limit : Nat) :
    ∀ m ∈ search_memories rows vs scoreOf uid limit, m ∈ rows := by
  intro m hm
  unfold search_memories at hm
  cases hup : vs.up with
  | false => rw [hup] at hm; simp at hm
  | true =>
    rw [hup] at hm
    simp only [if_true] at hm
    cases hr : vdb_search vs.points scoreOf limit (mkRat 7 10) uid with
    | nil => rw [hr] at hm; simp at hm
    | cons p ps =>
      rw [hr] at hm
      simp only [] at hm
      obtain ⟨rid, _, hfind⟩ := List.mem_filterMap.mp hm
      exact List.mem_of_mem_filter (List.mem_of_find?_eq_some hfind)

/-- Claim C4: episodic recall excludes every hit scoring below the default
threshold 0.7 (even when the limit is not reached), and — when every hit
resolves to a relational row — returns the hits in vector-search rank order. -/
theorem episodic_recall_threshold_order (rows : List EpisodicMemory)
    (vs : VectorStore) (scoreOf : VPoint → Rat) (uid limit : Nat)
    (hup : vs.up = true)
    (hres : ∀ p ∈ vdb_search vs.points scoreOf limit (mkRat 7 10) uid,
      (rows.find? (fun m => m.id == p.id)).isSome = true) :
    (∀ p ∈ vdb_search vs.points scoreOf limit (mkRat 7 10) uid,
       mkRat 7 10 ≤ scoreOf p) ∧
    (search_memories rows vs scoreOf uid limit).map (·.id)
      = (vdb_search vs.points scoreOf limit (mkRat 7 10) uid).map (·.id) := by
  constructor
  · intro p hp
    exact (vdb_search_threshold vs.points scoreOf limit (mkRat 7 10) uid p hp).1
  · rw [search_memories_spec rows vs scoreOf uid limit hup]
    apply List.filter_eq_self.mpr
    intro rid hrid
    obtain ⟨p, hp, hpid⟩ := List.mem_map.mp hrid
    subst hpid
    exact hres p hp

/-- Witness for C4, the concrete scenario of the spec: three indexed vectors
with similarity scores 0.9, 0.8, 0.5 for user 7, threshold 0.7, limit 3 —
recall returns exactly the first two memories, in that order. -/
theorem episodic_recall_threshold_order_witness :
    (∀ p ∈ vdb_search
        [⟨1, [1], 7, "a", 0, 1⟩, ⟨2, [2], 7, "b", 0, 1⟩, ⟨3, [3], 7, "c", 0, 1⟩]
        (fun p => if p.id == 1 then mkRat 9 10 else
          if p.id == 2 then mkRat 4 5 else mkRat 1 2) 3 (mkRat 7 10) 7,
       mkRat 7 10 ≤ (if p.id == 1 then mkRat 9 10 else
          if p.id == 2 then mkRat 4 5 else mkRat 1 2)) ∧
    (search_memories
        [⟨1, 7, "c1", "s1", none, [], [], 1, none, 1, 0⟩,
         ⟨2, 7, "c2", "s2", none, [], [], 1, none, 1, 0⟩,
         ⟨3, 7, "c3", "s3", none, [], [], 1, none, 1, 0⟩]
        ⟨[⟨1, [1], 7, "a", 0, 1⟩, ⟨2, [2], 7, "b", 0, 1⟩, ⟨3, [3], 7, "c", 0, 1⟩], true⟩
        (fun p => if p.id == 1 then mkRat 9 10 else
          if p.id == 2 then mkRat 4 5 else mkRat 1 2) 7 3).map (·.id)
      = (vdb_search
          [⟨1, [1], 7, "a", 0, 1⟩, ⟨2, [2], 7, "b", 0, 1⟩, ⟨3, [3], 7, "c", 0, 1⟩]
          (fun p => if p.id == 1 then mkRat 9 10 else
            if p.id == 2 then mkRat 4 5 else mkRat 1 2) 3 (mkRat 7 10) 7).map (·.id) :=
  episodic_recall_threshold_order
    [⟨1, 7, "c1", "s1", none, [], [], 1, none, 1, 0⟩,
     ⟨2, 7, "c2", "s2", none, [], [], 1, none, 1, 0⟩,
     ⟨3, 7, "c3", "s3", none, [], [], 1, none, 1, 0⟩]
    ⟨[⟨1, [1], 7, "a", 0, 1⟩, ⟨2, [2], 7, "b", 0, 1⟩, ⟨3, [3], 7, "c", 0, 1⟩], true⟩
    (fun p => if p.id == 1 then mkRat 9 10 else
      if p.id == 2 then mkRat 4 5 else mkRat 1 2) 7 3 rfl (by decide)

/-- Claim C5: every vector hit whose id resolves to no relational row is
silently dropped from the recall result (one fewer result per orphan, never an
error), the relative order of the surviving hydrated hits is the vector rank
order, and every returned memory is a relational row. -/
theorem episodic_recall_orphan_tolerance (rows : List EpisodicMemory)
    (vs : VectorStore) (scoreOf : VPoint → Rat) (uid limit : Nat)
    (hup : vs.up = true) :
    (search_memories rows vs scoreOf uid limit).map (·.id)
      = ((vdb_search vs.points scoreOf limit (mkRat 7 10) uid).map (·.id)).filter
          (fun rid => (rows.find? (fun m => m.id == rid)).isSome) ∧
    ∀ m ∈ search_memories rows vs scoreOf uid limit, m ∈ rows :=
  ⟨search_memories_spec rows vs scoreOf uid limit hup,
   search_memories_mem rows vs scoreOf uid limit⟩

/-- Witness for C5, the concrete scenario of the spec: with the relational
row of memory 1 deleted but its vector entry left behind, recall returns one
fewer result (only memory 2), not an error. -/
theorem episodic_recall_orphan_tolerance_witness :
    (search_memories
        [⟨2, 7, "c2", "s2", none, [], [], 1, none, 1, 0⟩,
         ⟨3, 7, "c3", "s3", none, [], [], 1, none, 1, 0⟩]
        ⟨[⟨1, [1], 7, "a", 0, 1⟩, ⟨2, [2], 7, "b", 0, 1⟩, ⟨3, [3], 7, "c", 0, 1⟩], true⟩
        (fun p => if p.id == 1 then mkRat 9 10 else
          if p.id == 2 then mkRat 4 5 else mkRat 1 2) 7 3).map (·.id)
      = ((vdb_search
          [⟨1, [1], 7, "a", 0, 1⟩, ⟨2, [2], 7, "b", 0, 1⟩, ⟨3, [3], 7, "c", 0, 1⟩]
          (fun p => if p.id == 1 then mkRat 9 10 else
            if p.id == 2 then mkRat 4 5 else mkRat 1 2) 3 (mkRat 7 10) 7).map (·.id)).filter
          (fun rid =>
            (([⟨2, 7, "c2", "s2", none, [], [], 1, none, 1, 0⟩,
               ⟨3, 7, "c3", "s3", none, [], [], 1, none, 1, 0⟩] :
                List EpisodicMemory).find? (fun m => m.id == rid)).isSome) ∧
    ∀ m ∈ search_memories
        [⟨2, 7, "c2", "s2", none, [], [], 1, none, 1, 0⟩,
         ⟨3, 7, "c3", "s3", none, [], [], 1, none, 1, 0⟩]
        ⟨[⟨1, [1], 7, "a", 0, 1⟩, ⟨2, [2], 7, "b", 0, 1⟩, ⟨3, [3], 7, "c", 0, 1⟩], true⟩
        (fun p => if p.id == 1 then mkRat 9 10 else
          if p.id == 2 then mkRat 4 5 else mkRat 1 2) 7 3,
      m ∈ [⟨2, 7, "c2", "s2", none, [], [], 1, none, 1, 0⟩,
           ⟨3, 7, "c3", "s3", none, [], [], 1, none, 1, 0⟩] :=
  episodic_recall_orphan_tolerance
    [⟨2, 7, "c2", "s2", none, [], [], 1, none, 1, 0⟩,
     ⟨3, 7, "c3", "s3", none, [], [], 1, none, 1, 0⟩]
    ⟨[⟨1, [1], 7, "a", 0, 1⟩, ⟨2, [2], 7, "b", 0, 1⟩, ⟨3, [3], 7, "c", 0, 1⟩], true⟩
    (fun p => if p.id == 1 then mkRat 9 10 else
      if p.id == 2 then mkRat 4 5 else mkRat 1 2) 7 3 rfl

/-- Claim C6: the relational episodic row is committed independently of the
vector side: with an unavailable (or failing) vector client, `store` returns
the same committed row and the same relational table as with a healthy one,
the row is appended to the table, and the vector store is left untouched —
the vector failure neither raises nor rolls back the relational write. -/
theorem episodic_store_vector_failure_nonfatal (es : EpisodicStore)
    (points : List VPoint) (uid : Nat) (md : EpisodicMemoryCreate)
    (embedding : List Rat) (now : Int) :
    (create_episodic_memory es ⟨points, false⟩ uid md embedding now).1
      = (create_episodic_memory es ⟨points, true⟩ uid md embedding now).1 ∧
    (create_episodic_memory es ⟨points, false⟩ uid md embedding now).2.1
      = (create_episodic_memory es ⟨points, true⟩ uid md embedding now).2.1 ∧
    (create_episodic_memory es ⟨points, false⟩ uid md embedding now).2.1.rows
      = es.rows ++ [(create_episodic_memory es ⟨points, false⟩ uid md embedding now).1] ∧
    (create_episodic_memory es ⟨points, false⟩ uid md embedding now).2.2
      = ⟨points, false⟩ :=
  ⟨rfl, rfl, rfl, rfl⟩

end App

namespace App

/-! ### Claim theorems: freshness signal -/

/-- A formatted turn always starts with an opening bracket. -/
theorem formatTurn_head (t : Turn) : ∃ l, (formatTurn t).data = '[' :: l := by
  unfold formatTurn
  cases h : t.role == "user" with
  | true =>
    refine ⟨("PROFESIONAL]: ").data ++ t.content.data, ?_⟩
    rw [if_pos rfl, String.data_append]
    have hd : ("[PROFESIONAL]: " : String).data
        = '[' :: ("PROFESIONAL]: " : String).data := by decide
    rw [hd, List.cons_append]
  | false =>
    refine ⟨("COMPY]: ").data ++ t.content.data, ?_⟩
    rw [if_neg (by simp), String.data_append]
    have hd : ("[COMPY]: " : String).data
        = '[' :: ("COMPY]: " : String).data := by decide
    rw [hd, List.cons_append]

/-- A join of a nonempty list starts with its first element. -/
theorem joinStrings_head (sep : String) (s : String) (rest : List String) :
    ∃ l, (joinStrings sep (s :: rest)).data = s.data ++ l := by
  cases rest with
  | nil => exact ⟨[], by simp [joinStrings]⟩
  | cons r rs =>
    refine ⟨sep.data ++ (joinStrings sep (r :: rs)).data, ?_⟩
    rw [show joinStrings sep (s :: r :: rs)
        = s ++ sep ++ joinStrings sep (r :: rs) from rfl]
    rw [String.data_append, String.data_append, List.append_assoc]

/-- A nonempty window never formats to the no-history sentinel. -/
theorem chatHistoryStr_ne (t : Turn) (ts : List Turn) :
    (chatHistoryStr (t :: ts) == "(No previous history)") = false := by
  rw [beq_eq_false_iff_ne]
  intro h
  obtain ⟨l1, hl1⟩ := formatTurn_head t
  obtain ⟨l2, hl2⟩ := joinStrings_head "\n" (formatTurn t) (ts.map formatTurn)
  have hdata : (chatHistoryStr (t :: ts)).data = '[' :: (l1 ++ l2) := by
    rw [show chatHistoryStr (t :: ts)
        = joinStrings "\n" (formatTurn t :: ts.map formatTurn) from rfl]
    rw [hl2, hl1, List.cons_append]
  have hh : ("(No previous history)" : String).data = '[' :: (l1 ++ l2) := by
    rw [← h]; exact hdata
  have h1 : ("(No previous history)" : String).data.head? = some '[' := by
    rw [hh]; rfl
  have h2 : ("(No previous history)" : String).data.head? = some '(' := by decide
  rw [h2] at h1
  exact absurd h1 (by decide)

/-- Claim C8: the session-freshness signal is a pure function of the window
and the current time — with a nonempty window whose last turn is at least 30
minutes (1800 s) old the assembled context gets the stale-session
acknowledgment; under 30 minutes it gets no note (fresh-continuing); with no
prior turns it gets the first-greeting instruction instead. -/
theorem freshness_threshold (stm : List Turn) (now : Int) :
    (stm = [] → sessionInstruction stm now = newSessionNote) ∧
    (∀ lastT, stm.getLast? = some lastT →
      ((1800 ≤ now - lastT.timestamp → sessionInstruction stm now = staleNote) ∧
       (now - lastT.timestamp < 1800 → sessionInstruction stm now = ""))) := by
  constructor
  · rintro rfl
    simp [sessionInstruction, isFreshSession, chatHistoryStr]
  · intro lastT hlast
    have hne : stm ≠ [] := by
      intro h
      rw [h] at hlast
      simp at hlast
    obtain ⟨t, ts, rfl⟩ := List.exists_cons_of_ne_nil hne
    constructor
    · intro hstale
      have hf : isFreshSession (t :: ts) now = true := by
        simp [isFreshSession, hlast]
        omega
      simp [sessionInstruction, hf, chatHistoryStr_ne]
    · intro hfresh
      have hf : isFreshSession (t :: ts) now = false := by
        simp [isFreshSession, hlast]
        omega
      simp [sessionInstruction, hf]

/-- Witness for C8, the spec's concrete thresholds: a last turn 31 minutes old
is stale, 10 minutes old is fresh-continuing (no note), and an empty window
yields the first-greeting instruction. -/
theorem freshness_threshold_witness :
    sessionInstruction [⟨"user", "hola", 0⟩] 1860 = staleNote ∧
    sessionInstruction [⟨"user", "hola", 0⟩] 600 = "" ∧
    sessionInstruction [] 600 = newSessionNote :=
  ⟨((freshness_threshold [⟨"user", "hola", 0⟩] 1860).2 ⟨"user", "hola", 0⟩ rfl).1
      (by decide),
   ((freshness_threshold [⟨"user", "hola", 0⟩] 600).2 ⟨"user", "hola", 0⟩ rfl).2
      (by decide),
   (freshness_threshold [] 600).1 rfl⟩

/-! ### Claim theorems: consolidation extraction parsing -/

/-- Counterexample refuting claim C9 as stated: the EXTRACT step does not
recover from malformed JSON by best-effort substring extraction.  On a model
output with prose around a valid JSON object, the substring extraction the
spec describes would succeed, yet the run goes straight to the error result
(the `json.loads` exception is caught and the run reported failed). -/
theorem extraction_no_recovery_cex :
    (bestEffortJsonSubstring "Sure! \x7b\"facts\": []\x7d Thanks.").isSome = true ∧
    (processLlmResponse 1 "Sure! \x7b\"facts\": []\x7d Thanks." (fun _ => [])
        ⟨[], 0⟩ ⟨[], 0⟩ ⟨[], true⟩ 0).1 = BgResult.error "JSONDecodeError" := by
  exact ⟨rfl, rfl⟩

/-- Claim C9 (amended): the EXTRACT step tolerates markdown code-fence
wrapping (the fences are deleted before parsing, so a fence-wrapped document
parses and persists), but attempts no substring recovery: whenever the
fence-stripped output fails to parse as JSON the run returns the error result
— modelling the caught `JSONDecodeError`, whose message is the exception
text, not the raw model output — and no facts or episodes are committed from
that run. -/
theorem extraction_parse_failure (uid : Nat) (response : String)
    (embed : String → List Rat) (fs : FactStore) (es : EpisodicStore)
    (vs : VectorStore) (now : Int)
    (h : jsonParse (stripFences response) = none) :
    processLlmResponse uid response embed fs es vs now
      = (BgResult.error "JSONDecodeError", fs, es, vs) ∧
    (processLlmResponse 3
        "```json\n\x7b\"facts\": [\x7b\"category\": \"preference\", \"value\": \"x\"\x7d]\x7d\n```"
        (fun _ => []) ⟨[], 0⟩ ⟨[], 0⟩ ⟨[], true⟩ 0).1 = BgResult.success 1 0 := by
  constructor
  · simp [processLlmResponse, h]
  · rfl

/-- Witness for C9 (amended): on a plain non-JSON model output the run
returns the error result with every store unchanged. -/
theorem extraction_parse_failure_witness :
    processLlmResponse 2 "not json at all" (fun _ => [])
        ⟨[], 0⟩ ⟨[], 0⟩ ⟨[], true⟩ 5
      = (BgResult.error "JSONDecodeError", ⟨[], 0⟩, ⟨[], 0⟩, ⟨[], true⟩) :=
  (extraction_parse_failure 2 "not json at all" (fun _ => [])
    ⟨[], 0⟩ ⟨[], 0⟩ ⟨[], true⟩ 5 rfl).1

/-! ### Claim theorems: capability failure in the reply path -/

/-- Creating-or-fetching a conversation never touches the messages table. -/
theorem get_or_create_messages (db : ChatDb) (uid : Nat) :
    (get_or_create_conversation db uid).2.messages = db.messages := by
  unfold get_or_create_conversation
  cases h : db.conversations.find? (fun c => c.2 == uid) <;> simp

/-- Counterexample refuting claim C10 as stated: when the language-model
capability raises, `generate_response` does not surface a terminal failure to
its caller — its result type has no failure channel, and at this input it
returns the fixed apology text as an ordinary successful-looking reply. -/
theorem capability_failure_not_surfaced_cex :
    generate_response ⟨some [1], none⟩ (fun _ _ => 0) true 1 "hola"
        ⟨[], false⟩ ⟨[(5, 1)], 6, []⟩ ⟨[], 0⟩ ⟨[], 0⟩ ⟨[], true⟩ 0
      = (apologyMessage, ⟨[], false⟩, ⟨[(5, 1)], 6, []⟩) := by
  rfl

/-- Claim C10 (amended): if the language-model capability raises (embedding
or generation), `generate_response` catches the exception and returns the
fixed apology string as a normal reply — no error reaches the caller — while
the turn performs no memory write: the STM window is untouched and no chat
message is persisted, so the memory tiers remain usable. -/
theorem capability_failure_caught (llm : LLMStub) (sim : List Rat → VPoint → Rat)
    (uid : Nat) (message : String) (cache : CacheState) (db : ChatDb)
    (fs : FactStore) (es : EpisodicStore) (vs : VectorStore) (now : Int)
    (hfail : llm.embed = none ∨ llm.generate = none) :
    (generate_response llm sim true uid message cache db fs es vs now).1
      = apologyMessage ∧
    (generate_response llm sim true uid message cache db fs es vs now).2.1
      = cache ∧
    (generate_response llm sim true uid message cache db fs es vs now).2.2.messages
      = db.messages := by
  rcases hfail with h | h
  · simp [generate_response, h, get_or_create_messages]
  · cases he : llm.embed with
    | none => simp [generate_response, he, get_or_create_messages]
    | some q => simp [generate_response, he, h, get_or_create_messages]

/-- Witness for C10 (amended): a fully unavailable capability on a concrete
state yields the apology with cache and messages unchanged. -/
theorem capability_failure_caught_witness :
    (generate_response ⟨none, none⟩ (fun _ _ => 0) true 1 "hola"
        ⟨[], false⟩ ⟨[], 0, []⟩ ⟨[], 0⟩ ⟨[], 0⟩ ⟨[], true⟩ 0).1
      = apologyMessage ∧
    (generate_response ⟨none, none⟩ (fun _ _ => 0) true 1 "hola"
        ⟨[], false⟩ ⟨[], 0, []⟩ ⟨[], 0⟩ ⟨[], 0⟩ ⟨[], true⟩ 0).2.1
      = ⟨[], false⟩ ∧
    (generate_response ⟨none, none⟩ (fun _ _ => 0) true 1 "hola"
        ⟨[], false⟩ ⟨[], 0, []⟩ ⟨[], 0⟩ ⟨[], 0⟩ ⟨[], true⟩ 0).2.2.messages
      = [] :=
  capability_failure_caught ⟨none, none⟩ (fun _ _ => 0) 1 "hola"
    ⟨[], false⟩ ⟨[], 0, []⟩ ⟨[], 0⟩ ⟨[], 0⟩ ⟨[], true⟩ 0 (Or.inl rfl)

end App
